import Mathlib

/-!
# Verification of the wjp JSON codec

A shallow embedding of the wjp library (a self-contained JSON codec written
in Rust) together with theorems settling the specification claims about it.

Modelling conventions, fixed once for the whole file:

* Bytes are `Nat` values below 256; the parser input - a Rust `&str` viewed
  through its bytes - is a `List Nat`.  All concrete inputs appearing in the
  theorems are ASCII, where the byte list and the character list coincide.
* Rust `f64` is modelled by the exact rationals `ℚ`.  The source parses
  number literals with `f64::from_str` and renders them with the shortest
  round-tripping decimal `Display`; the model parses and renders decimal
  text exactly.  The two agree on every value whose decimal text is exactly
  representable, in particular on all integers occurring in the claims.
  NaN and infinities are outside the model (the parser never produces them).
* `HashMap<String, Values>` is modelled by an association list with unique
  keys; `insert` replaces the value of an existing key in place, mirroring
  `HashMap::insert`.  The iteration order of a Rust `HashMap` is
  unspecified; the list order of the model is one such order.
* Fallible operations return `Except`.  The raw-pointer `read_byte`, which
  the source calls without a bounds check in two places, is modelled
  totally: reading at an index that is not below the input length yields
  the distinguished outcome `outOfBounds` (in the source this is the
  failure of the `debug_assert` in `read_byte`, and undefined behaviour in
  release builds).
* The main parse loop of the source is two nested `loop`s over an explicit
  stack; the model gives the loop a fuel argument and starts it with more
  fuel than any input of the given length can consume (every loop iteration
  consumes at least one input byte), so `outOfFuel` is never produced for
  the inputs considered here.
-/

namespace Wjp

/-- Model of `ParseError` (src/error.rs): a single opaque error type
carrying only an optional human-readable message. -/
structure ParseError where
  msg : String
deriving DecidableEq, Repr

/-- Model of `ParseError::new()`: an empty message. -/
def ParseError.new : ParseError := ⟨""⟩

/-- Model of the `Values` tagged union (src/values.rs).  `Number` carries a
rational (the model of `f64`), `Struct` an association list with unique keys
(the model of `HashMap<String, Values>`). -/
inductive Values where
  | string : String → Values
  | number : ℚ → Values
  | struct : List (String × Values) → Values
  | array : List Values → Values
  | null : Values
  | boolean : Bool → Values
deriving Repr

/-- Association-list lookup, the model of `HashMap::get`. -/
def lookupKV (k : String) : List (String × Values) → Option Values
  | [] => none
  | (k', v) :: rest => if k' = k then some v else lookupKV k rest

/-- Association-list insert, the model of `HashMap::insert`: replace the
value of an existing key, otherwise add the binding. -/
def insertKV (k : String) (v : Values) : List (String × Values) → List (String × Values)
  | [] => [(k, v)]
  | (k', v') :: rest => if k' = k then (k, v) :: rest else (k', v') :: insertKV k v rest

/-- Association-list removal, the model of `HashMap::remove`: the removed
value (if any) together with the remaining map. -/
def removeKV (k : String) : List (String × Values) → Option Values × List (String × Values)
  | [] => (none, [])
  | (k', v) :: rest =>
    if k' = k then (some v, rest)
    else
      let r := removeKV k rest
      (r.1, (k', v) :: r.2)

/-- Fractional decimal digits of `r / d` (with `r < d`), fuel-bounded.
For every value in the range of the `f64` model the expansion is finite and
the fuel `d` is sufficient, so the truncation branch is never taken. -/
def fracDigits : Nat → Nat → Nat → String
  | 0, _, _ => ""
  | _, 0, _ => ""
  | fuel + 1, r, d =>
    let r10 := r * 10
    toString (r10 / d) ++ fracDigits fuel (r10 % d) d

/-- Model of the `Display` rendering of an `f64` (used by
the `Display` of `Values::Number` and by `f.to_string()` in the conversions):
sign, integer part, and - only when nonzero - fractional digits.  Rust
prints integral doubles without a decimal point, matching this. -/
def numToString (q : ℚ) : String :=
  let sign := if q < 0 then "-" else ""
  let a := q.num.natAbs
  let d := q.den
  let ip := a / d
  let fr := a % d
  if fr = 0 then sign ++ toString ip
  else sign ++ toString ip ++ "." ++ fracDigits d fr d

/-- One decimal digit. -/
def digitVal (c : Char) : Option Nat :=
  if '0' ≤ c ∧ c ≤ '9' then some (c.toNat - '0'.toNat) else none

/-- Accumulate decimal digits. -/
def readDigits : List Char → Nat → Nat × Nat × List Char
  | [], acc => (acc, 0, [])
  | c :: rest, acc =>
    match digitVal c with
    | some d =>
      let r := readDigits rest (acc * 10 + d)
      (r.1, r.2.1 + 1, r.2.2)
    | none => (acc, 0, c :: rest)

/-- Model of `f64::from_str` on the grammar
`[+-]? digits [. digits] [(e|E) [+-]? digits]` (with at least one mantissa
digit), read exactly into `ℚ`: the value is
`sign * (ip·10^frLen + fr) * 10^(exp - frLen)`, built with a single `mkRat`.
The special literals `inf`/`NaN` are not modelled: every string this codec
hands to `from_str` starts with a decimal digit. -/
def f64FromStr (s : String) : Option ℚ :=
  let cs := s.data
  let (neg, cs) :=
    match cs with
    | '-' :: rest => (true, rest)
    | '+' :: rest => (false, rest)
    | _ => (false, cs)
  let (ip, ipLen, cs) := readDigits cs 0
  let (fr, frLen, cs) :=
    match cs with
    | '.' :: rest => readDigits rest 0
    | _ => (0, 0, cs)
  if ipLen + frLen = 0 then none
  else
    let (eneg, emag, eLen, cs) :=
      match cs with
      | 'e' :: rest | 'E' :: rest =>
        let (en, rest') :=
          match rest with
          | '-' :: r => (true, r)
          | '+' :: r => (false, r)
          | _ => (false, rest)
        let (m, mLen, rest2) := readDigits rest' 0
        (en, m, mLen, rest2)
      | _ => (false, 0, 1, cs)
    if eLen = 0 ∨ cs ≠ [] then none
    else
      let mant : Int := (if neg then -1 else 1) * (ip * 10 ^ frLen + fr)
      let q : ℚ :=
        if eneg then mkRat mant (10 ^ (frLen + emag))
        else mkRat (mant * 10 ^ emag) (10 ^ frLen)
      some q

/-! ## The parser (src/parser.rs)

The source scans an immutable byte buffer through a raw pointer with a
cursor `(index, length)`.  The model passes the byte list and the index
explicitly.  Outcomes are `Except PErr`; `PErr.parseError` models a
returned `ParseError`, `PErr.outOfBounds` an unguarded `read_byte` at an
index not below the length.

Every `loop` of the source becomes a function that is structurally
recursive on an explicit fuel argument, so that the model is computable
by the kernel.  Each loop iteration of the source moves the cursor
forward by at least one byte and the cursor never passes `length + 1`,
so `input.length + 2` units of fuel are more than any run can use;
`Parser.parse` and all internal call sites supply exactly that amount,
and the `outOfFuel` outcome is unreachable from `Parser.parse`. -/

/-- Parser outcome: a returned `ParseError`, an out-of-bounds `read_byte`
(failure of the debug assertion of the source; undefined behaviour in
release builds), or fuel exhaustion of a modelled loop (unreachable from
`Parser.parse`, see above). -/
inductive PErr where
  | parseError : ParseError → PErr
  | outOfBounds : PErr
  | outOfFuel : PErr
deriving DecidableEq, Repr

/-- Whitespace bytes treated as insignificant: 9 to 13 and 32. -/
def isWs (b : Nat) : Bool := (9 ≤ b && b ≤ 13) || b = 32

/-- Model of the `expect_byte!` macro: error (`ParseError::new()`) at
end-of-input, otherwise `read_byte` followed by `bump`.  The `is_eof`
guard is an equality test, so an index beyond the length reaches the
unguarded read: `outOfBounds`. -/
def expect_byte (input : List Nat) (i : Nat) : Except PErr (Nat × Nat) :=
  if i = input.length then .error (.parseError ParseError.new)
  else
    match input.get? i with
    | some b => .ok (b, i + 1)
    | none => .error .outOfBounds

/-- Model of `expect_byte_ignore_whitespace!`: repeated `expect_byte`
until a non-whitespace byte arrives. -/
def expect_byte_ws (input : List Nat) : Nat → Nat → Except PErr (Nat × Nat)
  | 0, _ => .error .outOfFuel
  | fuel + 1, i =>
    match expect_byte input i with
    | .error e => .error e
    | .ok (b, i') => if isWs b then expect_byte_ws input fuel i' else .ok (b, i')

/-- Byte value of an escape character, the `match` in `expect_string`:
`"` `\` `/` `b` `f` `t` `r` `n`.  `u` is handled separately (dropped),
anything else is an error. -/
def escByte (b : Nat) : Option Nat :=
  if b = 34 then some 34
  else if b = 92 ∨ b = 47 then some b
  else if b = 98 then some 8
  else if b = 102 then some 12
  else if b = 116 then some 9
  else if b = 114 then some 13
  else if b = 110 then some 10
  else none

/-- Model of `Parser::expect_string`, accumulating into `s` from index
`i` (the position right after the opening quote or the last consumed
byte).  The loop head calls `read_byte` with no end-of-input guard, so
running out of input inside a string is `outOfBounds`.  A `\u` escape is
recognized and skipped without contributing to `s`; the bytes after it
are handled as ordinary characters by the next iterations. -/
def expect_string (input : List Nat) : Nat → String → Nat → Except PErr (String × Nat)
  | 0, _, _ => .error .outOfFuel
  | fuel + 1, s, i =>
    match input.get? i with
    | none => .error .outOfBounds
    | some ch =>
      if ch = 34 then .ok (s, i + 1)
      else if ch = 92 then
        -- bump past the backslash, then expect_byte for the escape character
        match expect_byte input (i + 1) with
        | .error e => .error e
        | .ok (esc, i2) =>
          if esc = 117 then expect_string input fuel s i2
          else
            match escByte esc with
            | some b => expect_string input fuel (s.push (Char.ofNat b)) i2
            | none => .error (.parseError ParseError.new)
      else expect_string input fuel (s.push (Char.ofNat ch)) (i + 1)

/-- The byte-accumulation loop of `Parser::expect_number`.  When the
cursor sits exactly at end-of-input the guard `!is_eof()` skips the read
and the previous byte is examined again; since that byte was just pushed
(it was no delimiter) the loop pushes it a second time and bumps the
cursor past the length, and the following iteration reads out of
bounds. -/
def number_loop (input : List Nat) : Nat → Nat → String → Nat → Except PErr (String × Nat)
  | 0, _, _, _ => .error .outOfFuel
  | fuel + 1, num, s, i =>
    let read : Except PErr Nat :=
      if i = input.length then .ok num -- is_eof: skip the read
      else
        match input.get? i with
        | some b => .ok b
        | none => .error .outOfBounds
    match read with
    | .error e => .error e
    | .ok b =>
      if b = 92 ∨ b = 32 ∨ b = 44 ∨ b = 93 ∨ b = 125 ∨ b = 10 ∨ b = 13 then
        .ok (s, i)
      else number_loop input fuel b (s.push (Char.ofNat b)) (i + 1)

/-- Model of `Parser::expect_number`: accumulate from the first digit
`num`, then hand the text to `f64::from_str`; a parse failure is the
generic error (`Result<f64, ()>` converted by `From<()> for ParseError`). -/
def expect_number (input : List Nat) (num : Nat) (i : Nat) : Except PErr (ℚ × Nat) :=
  match number_loop input (input.length + 2) num (String.singleton (Char.ofNat num)) i with
  | .error e => .error e
  | .ok (s, i') =>
    match f64FromStr s with
    | some q => .ok (q, i')
    | none => .error (.parseError ParseError.new)

/-- Model of the `expect_eof!` macro: only whitespace may remain. -/
def expect_eof (input : List Nat) : Nat → Nat → Except PErr Unit
  | 0, _ => .error .outOfFuel
  | fuel + 1, i =>
    if i = input.length then .ok ()
    else
      match input.get? i with
      | none => .error .outOfBounds
      | some b =>
        if isWs b then expect_eof input fuel (i + 1)
        else .error (.parseError ParseError.new)

/-- A frame of the explicit parse stack (`StackBlock`): an array under
construction, or an object under construction together with the key
currently awaiting its value. -/
inductive Frame where
  | arr : List Values → Frame
  | obj : List (String × Values) → String → Frame

/-- Model of the `true` / `false` / `null` tails (`expect_sequence!`):
each byte must match exactly. -/
def expect_seq (input : List Nat) (i : Nat) : List Nat → Except PErr Nat
  | [] => .ok i
  | b :: rest =>
    match expect_byte input i with
    | .error e => .error e
    | .ok (ch, i') =>
      if ch = b then expect_seq input i' rest
      else .error (.parseError ParseError.new)

/-- The two interleaved loops of `Parser::parse`: an iteration of the
parsing loop dispatches on a consumed byte, an iteration of the
popping loop feeds a completed value to the innermost open
container. -/
inductive Step where
  | dispatch : Nat → Step
  | pop : Values → Step

/-- The body of `Parser::parse`: the parsing loop (`Step.dispatch ch`,
with `ch` already consumed and the cursor at `i`) and the popping loop
(`Step.pop value`) over the explicit stack.  A completed array element is
inserted at the FRONT of the array under construction
(`array.insert(0, value)`); a completed object member overwrites the
binding of the pending key (`object.insert(index.to_string(), value)`). -/
def parseLoop (input : List Nat) : Nat → List Frame → Step → Nat → Except PErr Values
  | 0, _, _, _ => .error .outOfFuel
  | fuel + 1, stack, .dispatch ch, i =>
    if ch = 91 then -- opening bracket of an array
      match expect_byte_ws input (input.length + 2) i with
      | .error e => .error e
      | .ok (ch2, i') =>
        if ch2 = 93 then parseLoop input fuel stack (.pop (.array [])) i'
        else parseLoop input fuel (Frame.arr [] :: stack) (.dispatch ch2) i'
    else if ch = 123 then -- opening brace of an object
      match expect_byte_ws input (input.length + 2) i with
      | .error e => .error e
      | .ok (ch2, i') =>
        if ch2 = 125 then parseLoop input fuel stack (.pop (.struct [])) i'
        else if ch2 = 34 then
          match expect_string input (input.length + 2) "" i' with
          | .error e => .error e
          | .ok (key, i2) =>
            match expect_byte_ws input (input.length + 2) i2 with -- the expect colon step
            | .error e => .error e
            | .ok (c, i3) =>
              if c = 58 then
                match expect_byte_ws input (input.length + 2) i3 with
                | .error e => .error e
                | .ok (ch3, i4) =>
                  parseLoop input fuel (Frame.obj (insertKV key .null []) key :: stack)
                    (.dispatch ch3) i4
              else .error (.parseError ParseError.new)
        else .error (.parseError ParseError.new)
    else if ch = 34 then -- string literal
      match expect_string input (input.length + 2) "" i with
      | .error e => .error e
      | .ok (s, i') => parseLoop input fuel stack (.pop (.string s)) i'
    else if 48 ≤ ch ∧ ch ≤ 57 then -- number literal
      match expect_number input ch i with
      | .error e => .error e
      | .ok (q, i') => parseLoop input fuel stack (.pop (.number q)) i'
    else if ch = 45 then -- minus sign: negate the following number
      match expect_byte input i with
      | .error e => .error e
      | .ok (d, i') =>
        if 48 ≤ d ∧ d ≤ 57 then
          match expect_number input d i' with
          | .error e => .error e
          | .ok (q, i2) => parseLoop input fuel stack (.pop (.number (-q))) i2
        else .error (.parseError ParseError.new)
    else if ch = 116 then -- t followed by rue
      match expect_seq input i [114, 117, 101] with
      | .error e => .error e
      | .ok i' => parseLoop input fuel stack (.pop (.boolean true)) i'
    else if ch = 102 then -- f followed by alse
      match expect_seq input i [97, 108, 115, 101] with
      | .error e => .error e
      | .ok i' => parseLoop input fuel stack (.pop (.boolean false)) i'
    else if ch = 110 then -- n followed by ull
      match expect_seq input i [117, 108, 108] with
      | .error e => .error e
      | .ok i' => parseLoop input fuel stack (.pop .null) i'
    else .error (.parseError ParseError.new)
  | fuel + 1, stack, .pop value, i =>
    match stack with
    | [] =>
      match expect_eof input (input.length + 2) i with
      | .error e => .error e
      | .ok _ => .ok value
    | Frame.arr l :: rest =>
      let l' := value :: l
      match expect_byte_ws input (input.length + 2) i with
      | .error e => .error e
      | .ok (ch, i') =>
        if ch = 44 then
          match expect_byte_ws input (input.length + 2) i' with
          | .error e => .error e
          | .ok (ch2, i2) => parseLoop input fuel (Frame.arr l' :: rest) (.dispatch ch2) i2
        else if ch = 93 then parseLoop input fuel rest (.pop (.array l')) i'
        else .error (.parseError ParseError.new)
    | Frame.obj m key :: rest =>
      let m' := insertKV key value m
      match expect_byte_ws input (input.length + 2) i with
      | .error e => .error e
      | .ok (ch, i') =>
        if ch = 44 then
          match expect_byte_ws input (input.length + 2) i' with -- the expect quote step
          | .error e => .error e
          | .ok (q, i2) =>
            if q = 34 then
              match expect_string input (input.length + 2) "" i2 with
              | .error e => .error e
              | .ok (key', i3) =>
                let m2 := insertKV key' .null m'
                match expect_byte_ws input (input.length + 2) i3 with -- the expect colon step
                | .error e => .error e
                | .ok (c, i4) =>
                  if c = 58 then
                    match expect_byte_ws input (input.length + 2) i4 with
                    | .error e => .error e
                    | .ok (ch3, i5) =>
                      parseLoop input fuel (Frame.obj m2 key' :: rest) (.dispatch ch3) i5
                  else .error (.parseError ParseError.new)
            else .error (.parseError ParseError.new)
        else if ch = 125 then parseLoop input fuel rest (.pop (.struct m')) i'
        else .error (.parseError ParseError.new)

/-- Model of `Parser::parse` over the bytes of the input. -/
def Parser.parse (input : List Nat) : Except PErr Values :=
  match expect_byte_ws input (input.length + 2) 0 with
  | .error e => .error e
  | .ok (ch, i) => parseLoop input (input.length + 2) [] (.dispatch ch) i

/-- Bytes of an ASCII string; all concrete parser inputs in this file
are ASCII, where this agrees with the UTF-8 bytes a Rust `&str` holds. -/
def strToBytes (s : String) : List Nat := s.data.map Char.toNat

/-! ## Accessors, rendering and equality of `Values` (src/values.rs) -/

/-- Model of `Values::get_string`. -/
def Values.get_string : Values → Option String
  | .string s => some s
  | _ => none

/-- Model of `Values::get_number`. -/
def Values.get_number : Values → Option ℚ
  | .number q => some q
  | _ => none

/-- Model of `Values::get_bool`. -/
def Values.get_bool : Values → Option Bool
  | .boolean b => some b
  | _ => none

/-- Model of `Values::get_struct` (returns a copy of the member mapping). -/
def Values.get_struct : Values → Option (List (String × Values))
  | .struct m => some m
  | _ => none

/-- Model of `Values::get_list_opt` (returns a copy of the element sequence). -/
def Values.get_list_opt : Values → Option (List Values)
  | .array l => some l
  | _ => none

/-- Model of `Values::get_type_as_string`. -/
def Values.get_type_as_string : Values → String
  | .string _ => "string"
  | .number _ => "number"
  | .struct _ => "struct"
  | .null => "null"
  | .array _ => "array"
  | .boolean _ => "boolean"

/-- The escaping applied by `Display` to a string payload:
`replace('\\', "\\\\").replace('\"', "\\\"")`.  The first pass introduces
no quote and the second pass introduces no further backslash next to an
existing one that the first pass would see, so the two sequential passes
equal this single character-wise pass. -/
def escDisplay (s : String) : String :=
  ⟨s.data.flatMap fun c =>
    if c = '\\' then ['\\', '\\'] else if c = '"' then ['\\', '"'] else [c]⟩

mutual

/-- Model of the `Display` rendering of `Values` (`to_string`): compact
JSON text; string payloads escaped by `escDisplay`, struct keys printed
raw, members joined by commas in the (model) iteration order. -/
def Values.toText : Values → String
  | .string s => "\"" ++ escDisplay s ++ "\""
  | .number q => numToString q
  | .struct m => "\x7b" ++ structBody m true ++ "\x7d"
  | .array l => "[" ++ arrayBody l true ++ "]"
  | .null => "null"
  | .boolean b => if b then "true" else "false"

/-- The member loop of `Display` for `Values::Struct`; `first` tracks
whether a comma separator is due. -/
def structBody : List (String × Values) → Bool → String
  | [], _ => ""
  | (k, v) :: rest, first =>
    (if first then "" else ",") ++ "\"" ++ k ++ "\":" ++ Values.toText v ++ structBody rest false

/-- The element loop of `Display` for `Values::Array`. -/
def arrayBody : List Values → Bool → String
  | [], _ => ""
  | v :: rest, first =>
    (if first then "" else ",") ++ Values.toText v ++ arrayBody rest false

end

mutual

/-- Model of `PartialEq for Values` (src/values.rs): structural on equal
variants, with the deliberate cross-variant rule that a `Number` and a
`String` are equal when the rendering of the number equals the
string, in either order.  All other cross-variant pairs are unequal. -/
def beqValues : Values → Values → Bool
  | .null, .null => true
  | .string a, .string b => a = b
  | .number a, .string b => numToString a = b
  | .string b, .number a => numToString a = b
  | .number a, .number b => a = b
  | .boolean a, .boolean b => a = b
  | .struct a, .struct b => a.length = b.length && beqStructAll a b
  | .array a, .array b => beqList a b
  | _, _ => false

/-- Model of the `PartialEq` of `Vec<Values>`: equal lengths and pairwise equal
elements. -/
def beqList : List Values → List Values → Bool
  | [], [] => true
  | x :: xs, y :: ys => beqValues x y && beqList xs ys
  | _, _ => false

/-- The quantifier of `PartialEq` of `HashMap<String, Values>`: every
binding of the first map is matched by an equal binding of the second. -/
def beqStructAll : List (String × Values) → List (String × Values) → Bool
  | [], _ => true
  | (k, v) :: rest, b =>
    (match lookupKV k b with
     | some w => beqValues v w
     | none => false) && beqStructAll rest b

end

/-! ## The Serialize protocol (src/serializer.rs) -/

/-- Model of `Serialize for f64`. -/
def serialize_f64 (q : ℚ) : Values := .number q

/-- Model of `Serialize for bool`. -/
def serialize_bool (b : Bool) : Values := .boolean b

/-- Model of `Serialize for str` and `String`. -/
def serialize_str (s : String) : Values := .string s

/-- Model of `Serialize for u8` (and every other unsigned width): cast to `f64`,
exact for all `u8` values. -/
def serialize_u8 (n : Nat) : Values := .number (n : ℚ)

/-- Model of `Serialize::json`: serialize, then render
(`self.serialize().to_string()`); for `f64` this is the claim's
`x.toJsonText()`. -/
def json_f64 (q : ℚ) : String := (serialize_f64 q).toText

/-- The key mangling in `Serialize for HashMap` / `BTreeMap`: render the
serialized key and remove its last and then its first character
(`string.remove(string.len()-1); string.remove(0)`), intended to strip
the quotes of a rendered string key.  (On a one-character rendering the
second `remove` would panic in Rust; no rendering is empty, and no
theorem below touches that case.) -/
def stripFirstLast (s : String) : String := ⟨(s.data.dropLast).drop 1⟩

/-- The member loop of `Serialize for HashMap<K, V>`: each key is
serialized, rendered, stripped by `stripFirstLast` and inserted with the
serialized value.  `kSer` and `vSer` stand for the `Serialize`
implementations of the generic parameters `K` and `V`; the list order of
`m` models the unspecified iteration order of the map. -/
def serMapLoop {κ α : Type} (kSer : κ → Values) (vSer : α → Values) :
    List (κ × α) → List (String × Values) → List (String × Values)
  | [], acc => acc
  | (k, v) :: rest, acc =>
    serMapLoop kSer vSer rest (insertKV (stripFirstLast (kSer k).toText) (vSer v) acc)

/-- Model of `Serialize for HashMap<K, V>` (and identically `BTreeMap<K, V>`):
a `Struct` whose keys are the stripped renderings of the serialized
source keys. -/
def hashMapSerialize {κ α : Type} (kSer : κ → Values) (vSer : α → Values)
    (m : List (κ × α)) : Values :=
  .struct (serMapLoop kSer vSer m [])

/-! ## The Construct protocol: `TryFrom<Values>` (src/serializer.rs) -/

/-- Decimal digits to a number, `none` on a non-digit or empty input. -/
def parseDecDigits : List Char → Option Nat → Option Nat
  | [], acc => acc
  | c :: rest, acc =>
    match digitVal c with
    | some d => parseDecDigits rest (some ((acc.getD 0) * 10 + d))
    | none => none

/-- Model of `usize::from_str` (64-bit): optional `+`, digits, range
check. -/
def usizeFromStr (s : String) : Option Nat :=
  let cs := match s.data with
    | '+' :: rest => rest
    | cs => cs
  match parseDecDigits cs none with
  | some n => if n < 2 ^ 64 then some n else none
  | none => none

/-- Model of `isize::from_str` (64-bit): optional sign, digits, range
check. -/
def isizeFromStr (s : String) : Option Int :=
  let (neg, cs) := match s.data with
    | '+' :: rest => (false, rest)
    | '-' :: rest => (true, rest)
    | cs => (false, cs)
  match parseDecDigits cs none with
  | some n =>
    let v : Int := if neg then -(n : Int) else (n : Int)
    if -(2 ^ 63) ≤ v ∧ v < 2 ^ 63 then some v else none
  | none => none

/-- Model of `TryFrom<Values> for String`: `get_string().ok_or(ParseError)`. -/
def string_try_from (v : Values) : Except ParseError String :=
  match v.get_string with
  | some s => .ok s
  | none => .error ParseError.new

/-- Model of `TryFrom<Values> for f64`: `get_number().ok_or(ParseError)`. -/
def f64_try_from (v : Values) : Except ParseError ℚ :=
  match v.get_number with
  | some q => .ok q
  | none => .error ParseError.new

/-- Model of `TryFrom<Values> for usize`: render the stored number with `Display`
(`f.to_string()`) and parse that text as a `usize`. -/
def usize_try_from (v : Values) : Except ParseError Nat :=
  match v.get_number with
  | none => .error ParseError.new
  | some f =>
    match usizeFromStr (numToString f) with
    | some n => .ok n
    | none => .error ParseError.new

/-- Model of `TryFrom<Values> for isize`: NOTE - unlike `usize` this goes through
`String::try_from`, so it requires a `Values::String` payload and parses
its content; a `Values::Number` is rejected before any text is looked
at. -/
def isize_try_from (v : Values) : Except ParseError Int :=
  match string_try_from v with
  | .error e => .error e
  | .ok s =>
    match isizeFromStr s with
    | some n => .ok n
    | none => .error ParseError.new

/-- Model of `TryFrom<Values> for u8`: through `usize`, then a width check. -/
def u8_try_from (v : Values) : Except ParseError Nat :=
  match usize_try_from v with
  | .error e => .error e
  | .ok n => if n < 2 ^ 8 then .ok n else .error ParseError.new

/-- Model of `TryFrom<Values> for i8`: through `isize`, then a width check. -/
def i8_try_from (v : Values) : Except ParseError Int :=
  match isize_try_from v with
  | .error e => .error e
  | .ok n => if -(2 ^ 7) ≤ n ∧ n < 2 ^ 7 then .ok n else .error ParseError.new

/-- Model of `TryFrom<Values> for i16`: through `isize`, then a width check. -/
def i16_try_from (v : Values) : Except ParseError Int :=
  match isize_try_from v with
  | .error e => .error e
  | .ok n => if -(2 ^ 15) ≤ n ∧ n < 2 ^ 15 then .ok n else .error ParseError.new

/-- Model of `TryFrom<Values> for i32`: through `isize`, then a width check. -/
def i32_try_from (v : Values) : Except ParseError Int :=
  match isize_try_from v with
  | .error e => .error e
  | .ok n => if -(2 ^ 31) ≤ n ∧ n < 2 ^ 31 then .ok n else .error ParseError.new

/-- Model of `TryFrom<Values> for i64`: through `isize`; the width check never
fails (same width). -/
def i64_try_from (v : Values) : Except ParseError Int :=
  match isize_try_from v with
  | .error e => .error e
  | .ok n => if -(2 ^ 63) ≤ n ∧ n < 2 ^ 63 then .ok n else .error ParseError.new

/-- The `while` loop of `TryFrom<Values> for Vec<T>`: pop the LAST
element of `pre`, convert it (any foreign error collapsed to
`ParseError::new()` by `map_err`), push the result onto `post`. -/
def vecLoop {α ε : Type} (f : Values → Except ε α) :
    List Values → List α → Except ParseError (List α)
  | [], post => .ok post
  | x :: xs, post =>
    match f ((x :: xs).getLast (by simp)) with
    | .error _ => .error ParseError.new
    | .ok t => vecLoop f (x :: xs).dropLast (post ++ [t])
termination_by pre _ => pre.length
decreasing_by
  simp [List.length_dropLast]

/-- Model of `TryFrom<Values> for Vec<T>`; `f` stands for the element conversion
`T::try_from`. -/
def vec_try_from {α ε : Type} (f : Values → Except ε α) (v : Values) :
    Except ParseError (List α) :=
  match v.get_list_opt with
  | none => .error ParseError.new
  | some pre => vecLoop f pre []

/-! ## The field-extraction helper (src/helper.rs)

The receiver `HashMap<String, Values>` is the association list; the
mutating operations return the result together with the updated map. -/

/-- Model of `SerializeHelper::get_val_res`: read without removing;
`self.get(attr).map(fun).ok_or(err)?.ok_or(err)`. -/
def get_val_res {α : Type} (m : List (String × Values)) (attr : String)
    (f : Values → Option α) : Except ParseError α :=
  match lookupKV attr m with
  | none => .error ParseError.new
  | some v =>
    match f v with
    | some t => .ok t
    | none => .error ParseError.new

/-- Model of `SerializeHelper::rm_val`: remove the entry and convert it through an
`Option`-returning function. -/
def rm_val {α : Type} (m : List (String × Values)) (attr : String)
    (f : Values → Option α) : Except ParseError α × List (String × Values) :=
  let r := removeKV attr m
  (match r.1 with
   | none => .error ParseError.new
   | some v =>
     match f v with
     | some t => .ok t
     | none => .error ParseError.new,
   r.2)

/-- Model of `SerializeHelper::map_val`: remove the entry and convert it through a
`Result`-returning function, propagating its error. -/
def map_val {α : Type} (m : List (String × Values)) (attr : String)
    (f : Values → Except ParseError α) : Except ParseError α × List (String × Values) :=
  let r := removeKV attr m
  (match r.1 with
   | none => .error ParseError.new
   | some v => f v,
   r.2)

/-! ## Supporting lemmas -/

/-- The removed value returned by `removeKV` is the `lookupKV` result. -/
theorem removeKV_fst (k : String) (m : List (String × Values)) :
    (removeKV k m).1 = lookupKV k m := by
  induction m with
  | nil => rfl
  | cons kv rest ih =>
    obtain ⟨k', v⟩ := kv
    by_cases h : k' = k <;> simp [removeKV, lookupKV, h, ih]

/-! ## Theorems for the specification claims -/

/-- C1 (counterexample): parsing the array text `[1,2,3]` does NOT yield
the elements in source order: the parsed array reads 3, 2, 1, so the
claimed result `1.0, 2.0, 3.0` is wrong. -/
theorem c1_array_order_counterexample :
    Parser.parse (strToBytes "[1,2,3]") =
      .ok (.array [.number 3, .number 2, .number 1])
    ∧ Parser.parse (strToBytes "[1,2,3]") ≠
      .ok (.array [.number 1, .number 2, .number 3]) := by
  refine ⟨rfl, fun h => ?_⟩
  rw [show Parser.parse (strToBytes "[1,2,3]") =
      .ok (.array [.number 3, .number 2, .number 1]) from rfl] at h
  simp at h

/-- C1 (amended): parsing `[1,2,3]` yields an Array whose elements, read
in order, are 3.0, 2.0, 1.0 (and `[1,2,3,4]` yields 4.0, 3.0, 2.0, 1.0):
the parser inserts each completed element at index 0 of the array under
construction, reversing the source order.  The last two conjuncts state
the prepending in general: a value completed inside an array frame
continues the loop with that value at the FRONT of the partial array,
both when the next significant byte is a comma and when it is the
closing bracket. -/
theorem c1_array_order_amended :
    (Parser.parse (strToBytes "[1,2,3]") =
      .ok (.array [.number 3, .number 2, .number 1]))
    ∧ (Parser.parse (strToBytes "[1,2,3,4]") =
      .ok (.array [.number 4, .number 3, .number 2, .number 1]))
    ∧ (∀ (input : List Nat) (fuel : Nat) (l : List Values) (rest : List Frame)
        (value : Values) (i i' i2 : Nat) (ch2 : Nat),
        expect_byte_ws input (input.length + 2) i = .ok (44, i') →
        expect_byte_ws input (input.length + 2) i' = .ok (ch2, i2) →
        parseLoop input (fuel + 1) (Frame.arr l :: rest) (.pop value) i =
          parseLoop input fuel (Frame.arr (value :: l) :: rest) (.dispatch ch2) i2)
    ∧ (∀ (input : List Nat) (fuel : Nat) (l : List Values) (rest : List Frame)
        (value : Values) (i i' : Nat),
        expect_byte_ws input (input.length + 2) i = .ok (93, i') →
        parseLoop input (fuel + 1) (Frame.arr l :: rest) (.pop value) i =
          parseLoop input fuel rest (.pop (.array (value :: l))) i') := by
  refine ⟨rfl, rfl, ?_, ?_⟩
  · intro input fuel l rest value i i' i2 ch2 hcomma hnext
    conv_lhs => unfold parseLoop
    rw [hcomma]
    simp [hnext]
  · intro input fuel l rest value i i' hclose
    conv_lhs => unfold parseLoop
    rw [hclose]
    simp

/-- Witness for C1 (amended) instantiating the prepend conjuncts on the
input `[1,2]` at the comma after the first element and at the closing
bracket after the second. -/
theorem c1_array_order_amended_witness :
    (parseLoop (strToBytes "[1,2]") 5 [Frame.arr []] (.pop (.number 1)) 2 =
      parseLoop (strToBytes "[1,2]") 4 [Frame.arr [.number 1]] (.dispatch 50) 4)
    ∧ (parseLoop (strToBytes "[1,2]") 5 [Frame.arr [.number 1]] (.pop (.number 2)) 4 =
      parseLoop (strToBytes "[1,2]") 4 [] (.pop (.array [.number 2, .number 1])) 5) :=
  ⟨c1_array_order_amended.2.2.1 (strToBytes "[1,2]") 4 [] [] (.number 1) 2 3 4 50 rfl rfl,
   c1_array_order_amended.2.2.2 (strToBytes "[1,2]") 4 [.number 1] [] (.number 2) 4 5 rfl⟩

/-- C2: the claimed invariant "an EOF guard precedes every read" does not
hold of the code: on the inputs `"ab` and `"` (unterminated string
literals) the scanner reaches the unguarded `read_byte` at
`index == length`, the reachable out-of-bounds branch of the total model
(in the source: the failure of the
`debug_assert!(self.index < self.length)`).  On empty input and on input
ending inside an escape the guarded reads fail cleanly with a
`ParseError`. -/
theorem c2_unguarded_read_reachable :
    Parser.parse (strToBytes "\"ab") = .error .outOfBounds
    ∧ Parser.parse (strToBytes "\"") = .error .outOfBounds
    ∧ Parser.parse (strToBytes "") = .error (.parseError ParseError.new)
    ∧ Parser.parse (strToBytes "\"ab\x5c") = .error (.parseError ParseError.new) :=
  ⟨rfl, rfl, rfl, rfl⟩

/-- C3: the round trip fails for every serialized number, because a
number literal that ends the input makes `expect_number` run past the
end: `5.0.toJsonText()` is `"5"`, and parsing `"5"` reaches the
out-of-bounds read instead of returning `Number(5.0)`.  The same literal
parses fine when a delimiter follows it (`[5]`), pinning the failure to
the end-of-input case. -/
theorem c3_number_roundtrip_overrun :
    json_f64 5 = "5"
    ∧ Parser.parse (strToBytes (json_f64 5)) = .error .outOfBounds
    ∧ Parser.parse (strToBytes "[5]") = .ok (.array [.number 5]) :=
  ⟨rfl, rfl, rfl⟩

/-- C4: a `Values::Number` holding the small integral value 5 does NOT
convert to any signed integer width: `isize::try_from` goes through
`String::try_from`, which rejects a `Number` payload, and every signed
width routes through `isize`.  The unsigned path behaves as the claim
says (render the stored float, parse the text), and the signed path
accepts only a `Values::String`. -/
theorem c4_signed_narrowing_rejects_number :
    isize_try_from (.number 5) = .error ParseError.new
    ∧ i8_try_from (.number 5) = .error ParseError.new
    ∧ i16_try_from (.number 5) = .error ParseError.new
    ∧ i32_try_from (.number 5) = .error ParseError.new
    ∧ i64_try_from (.number 5) = .error ParseError.new
    ∧ usize_try_from (.number 5) = .ok 5
    ∧ u8_try_from (.number 5) = .ok 5
    ∧ isize_try_from (.string "5") = .ok 5 :=
  ⟨rfl, rfl, rfl, rfl, rfl, rfl, rfl, rfl⟩

/-- C5: serializing a mapping with the numeric key 100 does NOT produce
the key `"100"`: the serializer strips the first and last character of
every rendered key (meant to remove the quotes of a string rendering),
so the numeric rendering `100` is mangled to `0`.  A string key survives
because its rendering is quoted. -/
theorem c5_map_key_text_mangled :
    hashMapSerialize serialize_u8 serialize_bool [(100, true)] =
      .struct [("0", .boolean true)]
    ∧ stripFirstLast (Values.toText (serialize_u8 100)) = "0"
    ∧ hashMapSerialize serialize_str serialize_bool [("ab", true)] =
      .struct [("ab", .boolean true)] :=
  ⟨rfl, rfl, rfl⟩

/-- C6 (counterexample): the escape sequence `A` does contribute
characters to the parsed string payload: parsing `"A"` yields the
string `0041` (the four would-be hex digits), not the empty string the
claim predicts. -/
theorem c6_u_escape_counterexample :
    Parser.parse (strToBytes "\"\x5cu0041\"") = .ok (.string "0041")
    ∧ Parser.parse (strToBytes "\"\x5cu0041\"") ≠ .ok (.string "") := by
  refine ⟨rfl, fun h => ?_⟩
  rw [show Parser.parse (strToBytes "\"\x5cu0041\"") = .ok (.string "0041") from rfl] at h
  simp at h

/-- C6 (amended): only the `\u` marker is dropped: when the scanner sees
a backslash followed by `u`, it consumes exactly those two bytes and
continues with the accumulated string unchanged, so the bytes after the
`u` are treated as ordinary characters and copied verbatim. -/
theorem c6_u_escape_marker_dropped (input : List Nat) (fuel : Nat) (s : String) (i : Nat)
    (hb : input.get? i = some 92) (hu : input.get? (i + 1) = some 117) :
    expect_string input (fuel + 1) s i = expect_string input fuel s (i + 2) := by
  obtain ⟨hlt, -⟩ := List.get?_eq_some.mp hu
  conv_lhs => unfold expect_string
  rw [hb]
  simp only [List.get?_eq_getElem?] at hu
  simp [expect_byte, Nat.ne_of_lt hlt, hu]

/-- Witness for C6 (amended) at a concrete input. -/
theorem c6_u_escape_marker_dropped_witness :
    expect_string [92, 117, 65, 34] 6 "" 0 = expect_string [92, 117, 65, 34] 5 "" 2 :=
  c6_u_escape_marker_dropped [92, 117, 65, 34] 5 "" 0 rfl rfl

/-- C7: parsing the text with the duplicate key, (braces
written as bytes 123 and 125), succeeds and yields a Struct holding the
single binding of `a` to the number 2: the later member overwrites the
earlier one. -/
theorem c7_duplicate_keys_last_wins :
    Parser.parse (strToBytes "\x7b\"a\":1,\"a\":2\x7d") =
      .ok (.struct [("a", .number 2)]) :=
  rfl

/-- C9: for every member mapping and attribute name not present in it,
the field-extraction operations `get_val_res`, `rm_val` and `map_val`
all return the error value (no panic, no default). -/
theorem c9_missing_field_errors {α : Type} (m : List (String × Values)) (attr : String)
    (f : Values → Option α) (g : Values → Except ParseError α)
    (hmiss : lookupKV attr m = none) :
    get_val_res m attr f = .error ParseError.new
    ∧ (rm_val m attr f).1 = .error ParseError.new
    ∧ (map_val m attr g).1 = .error ParseError.new := by
  refine ⟨?_, ?_, ?_⟩ <;> simp [get_val_res, rm_val, map_val, removeKV_fst, hmiss]

/-- Witness for C9 at a concrete mapping and absent attribute. -/
theorem c9_missing_field_errors_witness :
    get_val_res [("x", Values.null)] "y" Values.get_string = .error ParseError.new
    ∧ (rm_val [("x", Values.null)] "y" Values.get_string).1 = .error ParseError.new
    ∧ (map_val [("x", Values.null)] "y" string_try_from).1 = .error ParseError.new :=
  c9_missing_field_errors [("x", Values.null)] "y" Values.get_string string_try_from rfl

/-- Lemma: `beqList` is elementwise equality at equal length (the `PartialEq` of
`Vec`). -/
theorem beqList_iff (a : List Values) :
    ∀ b, beqList a b = true ↔ List.Forall₂ (fun x y => beqValues x y = true) a b := by
  induction a with
  | nil => intro b; cases b <;> simp [beqList]
  | cons x xs ih =>
    intro b
    cases b with
    | nil => simp [beqList]
    | cons y ys => simp [beqList, Bool.and_eq_true, ih, List.forall₂_cons]

/-- Lemma: `beqStructAll` demands a matching, `beqValues`-equal binding in `b`
for every binding of `a` (the quantifier of the `PartialEq` of
`HashMap`). -/
theorem beqStructAll_iff (b : List (String × Values)) :
    ∀ a, beqStructAll a b = true ↔
      ∀ kv ∈ a, ∃ w, lookupKV kv.1 b = some w ∧ beqValues kv.2 w = true := by
  intro a
  induction a with
  | nil => simp [beqStructAll]
  | cons kv rest ih =>
    obtain ⟨k, v⟩ := kv
    cases h : lookupKV k b with
    | none => simp [beqStructAll, h]
    | some w => simp [beqStructAll, h, Bool.and_eq_true, ih]

/-- C8: equality of `Values` is structural variant by variant - elementwise
for arrays, key-matched for structs, payload equality for the scalars -
except that a `Number` and a `String` (in either argument order) are equal
exactly when the decimal rendering of the number equals the string; every other
cross-variant pair is unequal. -/
theorem c8_values_eq_characterization :
    (∀ n s, beqValues (.number n) (.string s) = decide (numToString n = s))
    ∧ (∀ n s, beqValues (.string s) (.number n) = decide (numToString n = s))
    ∧ (∀ a b, beqValues (.string a) (.string b) = decide (a = b))
    ∧ (∀ a b, beqValues (.number a) (.number b) = decide (a = b))
    ∧ (∀ a b, beqValues (.boolean a) (.boolean b) = decide (a = b))
    ∧ beqValues .null .null = true
    ∧ (∀ a b, beqValues (.array a) (.array b) = true ↔
        List.Forall₂ (fun x y => beqValues x y = true) a b)
    ∧ (∀ a b, beqValues (.struct a) (.struct b) = true ↔
        (a.length = b.length ∧
          ∀ kv ∈ a, ∃ w, lookupKV kv.1 b = some w ∧ beqValues kv.2 w = true))
    ∧ (∀ v w, v.get_type_as_string ≠ w.get_type_as_string →
        (∀ n s, ¬(v = .number n ∧ w = .string s) ∧ ¬(v = .string s ∧ w = .number n)) →
        beqValues v w = false) := by
  refine ⟨fun n s => rfl, fun n s => rfl, fun a b => rfl, fun a b => rfl, fun a b => rfl,
    rfl, fun a b => ?_, fun a b => ?_, fun v w hty hcross => ?_⟩
  · exact beqList_iff a b
  · rw [show beqValues (.struct a) (.struct b) =
        (a.length = b.length && beqStructAll a b) from rfl]
    simp [Bool.and_eq_true, beqStructAll_iff]
  · cases v <;> cases w <;>
      first
      | rfl
      | (exact absurd rfl hty)
      | (exact absurd ⟨rfl, rfl⟩ (hcross _ _).1)
      | (exact absurd ⟨rfl, rfl⟩ (hcross _ _).2)

/-- Witness for C8 at concrete values, exercising the cross-variant
rules in both directions and a non-Number/String cross pair. -/
theorem c8_values_eq_characterization_witness :
    beqValues (.number 5) (.string "5") = decide (numToString 5 = "5")
    ∧ beqValues (.string "x") (.number 5) = decide (numToString 5 = "x")
    ∧ beqValues .null (.boolean true) = false :=
  ⟨c8_values_eq_characterization.1 5 "5",
   c8_values_eq_characterization.2.1 5 "x",
   c8_values_eq_characterization.2.2.2.2.2.2.2.2 .null (.boolean true)
     (by simp [Values.get_type_as_string])
     (fun n s => ⟨by simp, by simp⟩)⟩

/-- Lemma: `vecLoop` on a nonempty list: convert the last element, then recurse
on the rest with the result appended. -/
theorem vecLoop_ne_nil {α ε : Type} (f : Values → Except ε α) (ys : List Values)
    (post : List α) (h : ys ≠ []) :
    vecLoop f ys post =
      match f (ys.getLast h) with
      | .error _ => .error ParseError.new
      | .ok t => vecLoop f ys.dropLast (post ++ [t]) := by
  cases ys with
  | nil => exact absurd rfl h
  | cons x xs => rw [vecLoop]

/-- The loop of `Vec<T>::try_from` converts all elements back to front:
if every element converts, the loop succeeds and appends the conversions
of `pre` in reverse order after `post`. -/
theorem vecLoop_spec {α ε : Type} (f : Values → Except ε α) (pre : List Values) :
    ∀ post : List α, (∀ v ∈ pre, ∃ t, f v = .ok t) →
      ∃ us, vecLoop f pre post = .ok (post ++ us)
        ∧ us.length = pre.length
        ∧ ∀ i, i < pre.length →
            ∃ v t, pre.get? (pre.length - 1 - i) = some v ∧ f v = .ok t
              ∧ us.get? i = some t := by
  induction pre using List.reverseRecOn with
  | nil =>
    intro post _
    exact ⟨[], by simp [vecLoop], rfl, fun i hi => absurd hi (by simp)⟩
  | append_singleton xs x ih =>
    intro post hall
    obtain ⟨t, ht⟩ := hall x (by simp)
    obtain ⟨us, hus, hlen, hidx⟩ := ih (post ++ [t]) (fun v hv => hall v (by simp [hv]))
    refine ⟨t :: us, ?_, by simp [hlen], ?_⟩
    · rw [vecLoop_ne_nil f (xs ++ [x]) post (by simp), List.getLast_append_singleton, ht]
      simp [List.dropLast_concat, hus]
    · intro i hi
      match i with
      | 0 =>
        refine ⟨x, t, ?_, ht, rfl⟩
        rw [show (xs ++ [x]).length - 1 - 0 = xs.length by simp]
        exact List.get?_concat_length xs x
      | j + 1 =>
        have hj : j < xs.length := by simp at hi; omega
        obtain ⟨v, t', hg, hf, hu⟩ := hidx j hj
        refine ⟨v, t', ?_, hf, hu⟩
        rw [show (xs ++ [x]).length - 1 - (j + 1) = xs.length - 1 - j by simp; omega,
          List.get?_append (by omega)]
        exact hg

/-- C10: when every element of a `Values::Array` converts successfully,
`Vec<T>::try_from` succeeds and returns the conversions in reverse
stored order: result element `i` is the conversion of array element
`n - 1 - i`. -/
theorem c10_vec_try_from_reverses {α ε : Type} (f : Values → Except ε α)
    (l : List Values) (hall : ∀ v ∈ l, ∃ t, f v = .ok t) :
    ∃ ts, vec_try_from f (.array l) = .ok ts
      ∧ ts.length = l.length
      ∧ ∀ i, i < l.length →
          ∃ v t, l.get? (l.length - 1 - i) = some v ∧ f v = .ok t
            ∧ ts.get? i = some t := by
  obtain ⟨us, hus, hlen, hidx⟩ := vecLoop_spec f l [] hall
  exact ⟨us, by simpa [vec_try_from, Values.get_list_opt] using hus, hlen, hidx⟩

/-- Witness for C10 at a concrete two-element array with the identity
conversion. -/
theorem c10_vec_try_from_reverses_witness :
    ∃ ts, vec_try_from (fun v => (Except.ok v : Except ParseError Values))
        (.array [.null, .boolean true]) = .ok ts
      ∧ ts.length = ([Values.null, Values.boolean true] : List Values).length
      ∧ ∀ i, i < ([Values.null, Values.boolean true] : List Values).length →
          ∃ v t, ([Values.null, Values.boolean true] : List Values).get?
              (([Values.null, Values.boolean true] : List Values).length - 1 - i) = some v
            ∧ (Except.ok v : Except ParseError Values) = .ok t
            ∧ ts.get? i = some t :=
  c10_vec_try_from_reverses (fun v => (Except.ok v : Except ParseError Values))
    [.null, .boolean true] (fun v _ => ⟨v, rfl⟩)

end Wjp
